import Mathlib

/-!
# MediaMorph — verification of the protection-pipeline core

Shallow embedding of the adaptive multi-layer transformation pipeline of the
MediaMorph repository (`src/processors/video_processor.py` and
`src/processors/image_processor.py`) together with theorems settling the
spec's claims about it.

Conventions of the embedding:
* Python functions that may raise are embedded as `Option`-returning
  functions (`none` = an exception was raised).
* Calls into the `random` / `numpy.random` modules are embedded by passing
  the drawn values (or unit-interval draws) as explicit arguments:
  `random.choice(l)` becomes selection by an explicit index draw,
  `random.randint(a, b)` becomes `a + r % (b - a + 1)` for an explicit
  draw `r`, and `random.uniform(lo, hi)` becomes `lo + u * (hi - lo)` for
  an explicit unit draw `u ∈ [0, 1]`.
* Machine pixel values are `Nat` (the `uint8` range `< 256` is carried as a
  hypothesis where it matters); exact real arithmetic on intensities and
  frequency coefficients is `ℚ`.
* The external codec / filter-graph / DCT primitives (``ffmpeg`` filters,
  ``scipy.fft.dctn``/``idctn``, JPEG encoding) are external collaborators:
  the embedding models the repository's own control flow and coefficient /
  pixel manipulations around them, never the codecs themselves.
-/

namespace MediaMorph

/-! ## Video processor: protection layers

`VideoProcessor.apply_protection_layer` (src/processors/video_processor.py,
lines 192–208) and the layer loop of `_apply_tiktok_2025_system`
(lines 210–454). -/

/-- One protection layer as used by the 2025 systems: a display name, a
fallible advanced transform, and an optional fallible fallback transform. -/
structure Layer (B : Type) where
  name : String
  advanced : B → Option B
  fallback : Option (B → Option B)

/-- `VideoProcessor.apply_protection_layer(video, layer_name, filter_func,
fallback_func=None)`: try `filter_func(video)`; if it raises and a fallback is
given, try `fallback_func(video)` (note: on the *pre-layer* buffer); if that
also raises — or no fallback was given — return `video` unchanged.  The Python
body catches every exception, so the embedded function is total. -/
def applyProtectionLayer {B : Type} (video : B) (filterFn : B → Option B)
    (fallbackFn : Option (B → Option B)) : B :=
  match filterFn video with
  | some result => result
  | none =>
    match fallbackFn with
    | some fb =>
      match fb video with
      | some result => result
      | none => video
    | none => video

/-- The layer loop of `_apply_tiktok_2025_system`: each layer is run through
`apply_protection_layer`, the resulting stream replaces `video`, and the
layer's name is appended to `protection_layers_applied` *unconditionally*
(the appends at lines 260, 293, 331, 371, 393, 421, 454 are straight-line
code after each `apply_protection_layer` call). -/
def runLayers {B : Type} (video : B) : List (Layer B) → B × List String
  | [] => (video, [])
  | l :: ls =>
    let next := applyProtectionLayer video l.advanced l.fallback
    let rest := runLayers next ls
    (rest.1, l.name :: rest.2)

/-! ## Video processor: session history / batch protection

`VideoProcessor._apply_batch_protection` (src/processors/video_processor.py,
lines 1265–1301), the `reserve` operation of the spec's `SessionHistory`. -/

/-- A session fingerprint: `{'platform': …, 'variation_type': …,
'timestamp': …}` where `timestamp` is the 10-minute bucket
`int(time.time() / 600)`. -/
structure Fingerprint where
  platform : String
  variationType : Nat
  timestamp : Nat
deriving DecidableEq

/-- `random.choice` on a list of naturals with the draw made explicit:
uniform selection is indexing by `r % len(l)` (the list is never empty on
the paths the code reaches; `getD` returns `0` on the impossible empty
case). -/
def choiceNat (l : List Nat) (r : Nat) : Nat :=
  l.getD (r % l.length) 0

/-- `random.randint(a, b)` (both ends inclusive) with the draw `r` made
explicit. -/
def randintNat (a b r : Nat) : Nat :=
  a + r % (b - a + 1)

/-- `self.max_history = 10` (src/processors/video_processor.py, line 14). -/
def maxHistory : Nat := 10

/-- The `recent_similar` list comprehension (lines 1275–1278): fingerprints
matching the candidate's platform *and* variation type whose bucket is
within 3 of the current one. -/
def recentSimilarList (history : List Fingerprint) (platform : String)
    (ctype bucket : Nat) : List Fingerprint :=
  history.filter fun h =>
    h.platform == platform && h.variationType == ctype &&
      (decide (h.timestamp - bucket ≤ 3) && decide (bucket - h.timestamp ≤ 3))

/-- `VideoProcessor._apply_batch_protection(variation_seed, platform)`.

State-explicit embedding: `history` is `self.session_history` on entry and
the second component of the result is `self.session_history` on exit.
`now` is `int(time.time())`; `r` embeds the draw of
`random.choice(available_types)` and `rOff` the draw of
`random.randint(15, 75)`.

Faithful points worth noting:
* `session_fingerprint` is built from `variation_seed % 8` *before* any
  adjustment, and that same record is appended to history at the end;
* `recent_similar` keeps only fingerprints whose platform *and* variation
  type equal the candidate's, with bucket distance at most 3;
* eviction is `self.session_history[-self.max_history:]`, i.e. keep the
  last 10 entries. -/
def applyBatchProtection (history : List Fingerprint) (variationSeed : Nat)
    (platform : String) (now : Nat) (r rOff : Nat) : Nat × List Fingerprint :=
  let fp : Fingerprint := ⟨platform, variationSeed % 8, now / 600⟩
  let recentSimilar :=
    recentSimilarList history platform fp.variationType fp.timestamp
  let newSeed :=
    if recentSimilar.isEmpty then variationSeed
    else
      let usedTypes := recentSimilar.map (·.variationType)
      let availableTypes := (List.range 8).filter fun t => !usedTypes.contains t
      if availableTypes.isEmpty then
        variationSeed + randintNat 15 75 rOff
      else
        (variationSeed / 8) * 8 + choiceNat availableTypes r
  let grown := history ++ [fp]
  let newHistory :=
    if grown.length > maxHistory then grown.drop (grown.length - maxHistory)
    else grown
  (newSeed, newHistory)

/-! ## Preset entry points and their control flow

`VideoProcessor.apply_preset` (src/processors/video_processor.py, lines
94–119) and `ImageProcessor.apply_preset` (src/processors/image_processor.py,
lines 16–27), embedded as traces of the work they perform on the media
together with the result surfaced to the caller. -/

/-- One unit of media work performed by a preset run, at the granularity the
claims need. -/
inductive MediaWork where
  /-- `_apply_advanced_audio_protection` (video, line 101): probes the input
  and, when audio is present, fully re-encodes it through the audio
  protection filter chain.  The attempt itself catches its own errors. -/
  | audioProtection
  /-- The six/four-layer protection pipeline of a platform-specific 2025
  system (the `apply_protection_layer` sequence). -/
  | protectionLayers
  /-- The primary high-quality ffmpeg encode of a 2025 system. -/
  | primaryEncode
  /-- The robust fallback encode attempted when the primary encode raises. -/
  | fallbackEncode
  /-- Opening and decoding the input image (`Image.open`, image presets). -/
  | openImage
  /-- The five-layer image pipeline plus metadata evasion and JPEG save of an
  image advanced preset. -/
  | imagePipeline
deriving DecidableEq

/-- Common control flow of `_apply_tiktok_2025_system` /
`_apply_instagram_2025_system` / `_apply_youtube_2025_system` (lines
210–557, 559–798, 800–1044): run the protection layers (which never abort),
attempt the primary encode; on `ffmpeg.Error` attempt the fallback encode
with no further handler, so a fallback-encode failure propagates to the
outer `except`, which re-raises `Exception(f"<Platform> processing
failed: …")`.  `primaryOk` / `fallbackOk` embed the external encoder's
behaviour. -/
def videoSystem (platformLabel : String) (primaryOk fallbackOk : Bool) :
    List MediaWork × Except String String :=
  if primaryOk then
    ([.protectionLayers, .primaryEncode], .ok "output")
  else if fallbackOk then
    ([.protectionLayers, .primaryEncode, .fallbackEncode], .ok "output")
  else
    ([.protectionLayers, .primaryEncode, .fallbackEncode],
      .error (platformLabel ++ " processing failed"))

/-- `VideoProcessor.apply_preset(input_path, platform)` (lines 94–119):
`_apply_advanced_audio_protection` runs *first*, unconditionally (line 101);
only afterwards is the platform dispatched, and an unrecognized platform
raises `ValueError(f"Unknown platform: {platform}")` (line 112). -/
def videoApplyPreset (platform : String) (primaryOk fallbackOk : Bool) :
    List MediaWork × Except String String :=
  let audioWork : List MediaWork := [.audioProtection]
  if platform = "tiktok" then
    let r := videoSystem "TikTok" primaryOk fallbackOk
    (audioWork ++ r.1, r.2)
  else if platform = "instagram" then
    let r := videoSystem "Instagram" primaryOk fallbackOk
    (audioWork ++ r.1, r.2)
  else if platform = "youtube" then
    let r := videoSystem "YouTube" primaryOk fallbackOk
    (audioWork ++ r.1, r.2)
  else
    (audioWork, .error ("Unknown platform: " ++ platform))

/-- Common control flow of the image advanced presets
(`_apply_tiktok_advanced_preset` etc., src/processors/image_processor.py,
lines 29–66, 1036–1067, 1069–1097): open the image; on success run the
five-layer pipeline, metadata evasion and save; any exception is re-raised
as `Exception(f"Error in <Platform> advanced preset: …")`.  `openOk` embeds
whether decoding the input file succeeds. -/
def imageAdvancedPreset (platformLabel : String) (openOk : Bool) :
    List MediaWork × Except String String :=
  if openOk then
    ([.openImage, .imagePipeline], .ok "output")
  else
    ([.openImage], .error ("Error in " ++ platformLabel ++ " advanced preset"))

/-- `ImageProcessor.apply_preset(input_path, platform)` (lines 16–27): pure
dispatch — an unrecognized platform raises
`ValueError(f"Unknown platform: {platform}")` before anything touches the
media. -/
def imageApplyPreset (platform : String) (openOk : Bool) :
    List MediaWork × Except String String :=
  if platform = "tiktok" then imageAdvancedPreset "TikTok" openOk
  else if platform = "instagram" then imageAdvancedPreset "Instagram" openOk
  else if platform = "youtube" then imageAdvancedPreset "YouTube" openOk
  else ([], .error ("Unknown platform: " ++ platform))

/-! ## Image processor: dynamic variations

`ImageProcessor._get_dynamic_variation` (src/processors/image_processor.py,
lines 740–772). -/

/-- The per-request image variation record.  Exact rationals stand for the
Python floats; the decimal bounds of the source are representable exactly. -/
structure Variation where
  type : Nat
  intensity : ℚ
  noiseLevel : Nat
  colorShift : ℚ
  frequencyBands : String
  perturbationStrength : ℚ

/-- `random.uniform(lo, hi)` with the unit draw `u ∈ [0, 1]` made explicit. -/
def uniformDraw (lo hi u : ℚ) : ℚ :=
  lo + u * (hi - lo)

/-- `random.choice` over a list of strings with the draw made explicit. -/
def choiceStr (l : List String) (r : Nat) : String :=
  l.getD (r % l.length) ""

/-- `ImageProcessor._get_dynamic_variation(platform)`.

`tSec` is `int(time.time())` and `rSeed` the draw of `random.randint(1, 3)`,
giving `variation_seed = int(time.time()) % 5 + random.randint(1, 3)`
(line 743).  Each sampled field's draw is passed explicitly (`uIntensity`,
`rNoise`, `uColor`, `rBands`, `uStrength`); the Python code builds all three
platform dictionaries and returns `variations.get(platform,
variations['tiktok'])`, so an unrecognized platform falls back to the
tiktok entry. -/
def getDynamicVariation (platform : String) (tSec rSeed : Nat)
    (uIntensity : ℚ) (rNoise : Nat) (uColor : ℚ) (rBands : Nat)
    (uStrength : ℚ) : Variation :=
  let variationSeed := tSec % 5 + randintNat 1 3 rSeed
  if platform = "instagram" then
    { type := variationSeed % 4
      intensity := uniformDraw 0.12 0.28 uIntensity
      noiseLevel := randintNat 2 6 rNoise
      colorShift := uniformDraw 0.008 0.018 uColor
      frequencyBands := choiceStr ["low", "mid"] rBands
      perturbationStrength := uniformDraw 0.015 0.05 uStrength }
  else if platform = "youtube" then
    { type := variationSeed % 4
      intensity := uniformDraw 0.10 0.25 uIntensity
      noiseLevel := randintNat 1 5 rNoise
      colorShift := uniformDraw 0.003 0.012 uColor
      frequencyBands := choiceStr ["mid", "mixed"] rBands
      perturbationStrength := uniformDraw 0.01 0.04 uStrength }
  else
    { type := variationSeed % 5
      intensity := uniformDraw 0.15 0.35 uIntensity
      noiseLevel := randintNat 3 8 rNoise
      colorShift := uniformDraw 0.005 0.015 uColor
      frequencyBands := choiceStr ["low", "mid", "mixed"] rBands
      perturbationStrength := uniformDraw 0.02 0.06 uStrength }

/-! ## Image processor: content-adaptive bit embedding

`ImageProcessor._apply_reversible_steganography`
(src/processors/image_processor.py, lines 813–846). -/

/-- An `h × w` RGB image: pixel value of channel `c` at row `i`, column `j`
(`uint8` values live in `Nat`). -/
def Image (h w : Nat) : Type :=
  Fin h → Fin w → Fin 3 → Nat

/-- Index `x` folded back into `[0, n)` by scipy's default `reflect`
boundary mode `(d c b a | a b c d | d c b a)`; the trailing `% n` is a
clamp that is never exercised for the offsets `±1` the sobel stencil
uses. -/
def reflectIdx (n : Nat) (x : ℤ) : Nat :=
  (if x < 0 then Int.toNat (-x - 1)
   else if n ≤ x then Int.toNat (2 * n - 1 - x)
   else Int.toNat x) % n

/-- `reflectIdx` packaged as a `Fin n` shift. -/
def reflectFin {n : Nat} (i : Fin n) (d : ℤ) : Fin n :=
  ⟨reflectIdx n (i.1 + d), Nat.mod_lt _ i.pos⟩

/-- `gray = np.mean(img_array, axis=2)` (line 822). -/
def grayAt {h w : Nat} (img : Image h w) (i : Fin h) (j : Fin w) : ℚ :=
  ((img i j 0 + img i j 1 + img i j 2 : Nat) : ℚ) / 3

/-- `gradient_magnitude = ndimage.sobel(gray)` (line 823): the sobel filter
along the last axis — derivative stencil `[-1, 0, 1]` on columns, smoothing
`[1, 2, 1]` on rows, `reflect` boundary.  Note the code keeps the *signed*
filter output. -/
def sobelAt {h w : Nat} (g : Fin h → Fin w → ℚ) (i : Fin h) (j : Fin w) : ℚ :=
  let v : ℤ → ℤ → ℚ := fun di dj => g (reflectFin i di) (reflectFin j dj)
  (v (-1) 1 - v (-1) (-1)) + 2 * (v 0 1 - v 0 (-1)) + (v 1 1 - v 1 (-1))

/-- All sobel responses of the image, flattened (the array
`np.percentile` ranges over). -/
def sobelValues {h w : Nat} (img : Image h w) : List ℚ :=
  ((List.finRange h).map fun i =>
    (List.finRange w).map fun j => sobelAt (grayAt img) i j).flatten

/-- `np.percentile(xs, 70)`: sort, take the fractional index
`0.7 * (n - 1)` with linear interpolation. -/
def percentile70 (xs : List ℚ) : ℚ :=
  let sorted := List.insertionSort (· ≤ ·) xs
  let n := sorted.length
  if n = 0 then 0
  else
    let pos : ℚ := (7 * (n - 1) : ℚ) / 10
    let lo := Nat.floor pos
    sorted.getD lo 0 + (pos - lo) * (sorted.getD (lo + 1) 0 - sorted.getD lo 0)

/-- `texture_mask = gradient_magnitude > np.percentile(gradient_magnitude,
70)` (line 824), the spec's `DetectionMask`. -/
def textureMask {h w : Nat} (img : Image h w) (i : Fin h) (j : Fin w) : Bool :=
  decide (percentile70 (sobelValues img) < sobelAt (grayAt img) i j)

/-- `ImageProcessor._apply_reversible_steganography(img, variation)`.

`sp` embeds numpy's seeded global generator: `sp seed i j % 4` is the value
`np.random.randint(0, 4, (h, w))[i, j]` drawn after `np.random.seed(seed)`.
Per channel `c` the code seeds with `variation['type'] + c` (line 831), so
every draw below depends only on that seed — `sp` is shared by all calls
because it is the library's fixed algorithm.

For each selected cell (`texture_mask` true and pattern value `0`) the
lowest bit is set to `variation['type'] % 2` (line 838); when
`variation['intensity'] > 0.8` the second-lowest bit of the *updated* value
is additionally set to `(variation['type'] // 2) % 2` (lines 841–842). -/
def embedStego {h w : Nat} (sp : Nat → Nat → Nat → Nat) (img : Image h w)
    (v : Variation) : Image h w :=
  fun i j c =>
    let sel := textureMask img i j && (sp (v.type + c.1) i.1 j.1 % 4 == 0)
    let x := img i j c
    let x1 := if sel then (x &&& 0xFE) ||| (v.type % 2) else x
    if (0.8 : ℚ) < v.intensity then
      if sel then (x1 &&& 0xFD) ||| (((v.type / 2) % 2) <<< 1) else x1
    else x1

/-- The embedding step with the ambient state of numpy's global generator on
entry made explicit.  `np.random.seed(variation['type'] + c)` overwrites
that state before any draw (line 831), so `ambient` is discarded: the
modification pattern is a pure function of `variation['type']` and the
channel index. -/
def embedStegoFromState {h w : Nat} (sp : Nat → Nat → Nat → Nat)
    (_ambient : Nat) (img : Image h w) (v : Variation) : Image h w :=
  embedStego sp img v

/-! ## Image processor: frequency-band perturbation of a DCT block

The coefficient manipulation at the heart of
`ImageProcessor._apply_hybrid_dct_manipulation`
(src/processors/image_processor.py, lines 848–897).  The surrounding
`dctn` / `idctn` transforms are external library calls; the embedding
models the band selection and offset application on one 8×8 coefficient
block (lines 873–887).  `np.random.uniform(-a, a, …)` is embedded as
`a * u` for a unit draw `u ∈ [-1, 1]` supplied per cell (`uA`, `uB`, `uC`
are the draw matrices of the first, second and third `uniform` call of the
branch taken). -/
def dctBandPerturb (bands : String) (intensity : ℚ)
    (uA uB uC : Fin 8 → Fin 8 → ℚ) (block : Fin 8 → Fin 8 → ℚ) :
    Fin 8 → Fin 8 → ℚ :=
  fun i j =>
    if bands = "low" then
      if i.1 < 3 ∧ j.1 < 3 then block i j + 0.5 * uA i j * intensity
      else block i j
    else if bands = "mid" then
      if 2 ≤ i.1 ∧ i.1 < 6 ∧ 2 ≤ j.1 ∧ j.1 < 6 then
        block i j + 0.8 * uB i j * intensity
      else block i j
    else if bands = "high" then
      if 5 ≤ i.1 ∧ 5 ≤ j.1 then block i j + 1.2 * uC i j * intensity
      else block i j
    else
      if i.1 < 3 ∧ j.1 < 3 then block i j + 0.3 * uA i j * intensity
      else if 3 ≤ i.1 ∧ i.1 < 6 ∧ 3 ≤ j.1 ∧ j.1 < 6 then
        block i j + 0.6 * uB i j * intensity
      else if 6 ≤ i.1 ∧ 6 ≤ j.1 then block i j + 0.9 * uC i j * intensity
      else block i j

/-! ## Theorems -/

/-- Helper: a layer whose advanced and fallback transforms both fail leaves
the buffer untouched. -/
theorem applyProtectionLayer_of_both_fail {B : Type} (video : B)
    (filterFn fb : B → Option B) (hf : filterFn video = none)
    (hb : fb video = none) :
    applyProtectionLayer video filterFn (some fb) = video := by
  simp [applyProtectionLayer, hf, hb]

/-- Helper: a layer whose advanced transform fails but whose fallback is the
no-op success also leaves the buffer untouched. -/
theorem applyProtectionLayer_of_identity_fallback {B : Type} (video : B)
    (filterFn fb : B → Option B) (hf : filterFn video = none)
    (hb : ∀ b, fb b = some b) :
    applyProtectionLayer video filterFn (some fb) = video := by
  simp [applyProtectionLayer, hf, hb]

/-- C1: for every protection layer whose advanced and fallback functions
both raise, `apply_protection_layer` returns the input buffer unchanged (and,
being a total function in the embedding, never itself raises: the Python
body catches every exception); and for a layer list in which every fallback
is the identity success and every advanced function fails, the layer loop
returns a buffer equal to its input — and likewise when every advanced *and*
every fallback fails (every layer skipped, the run still completes). -/
theorem protection_layer_failure_degrades_without_abort :
    (∀ (B : Type) (video : B) (filterFn fb : B → Option B),
      filterFn video = none → fb video = none →
      applyProtectionLayer video filterFn (some fb) = video) ∧
    (∀ (B : Type) (video : B) (layers : List (Layer B)),
      (∀ l ∈ layers, (∀ b, l.advanced b = none) ∧
        ∃ fb, l.fallback = some fb ∧ ∀ b, fb b = some b) →
      (runLayers video layers).1 = video) ∧
    (∀ (B : Type) (video : B) (layers : List (Layer B)),
      (∀ l ∈ layers, (∀ b, l.advanced b = none) ∧
        ∃ fb, l.fallback = some fb ∧ ∀ b, fb b = none) →
      (runLayers video layers).1 = video) := by
  refine ⟨fun B video filterFn fb hf hb =>
    applyProtectionLayer_of_both_fail video filterFn fb hf hb, ?_, ?_⟩
  · intro B video layers hlayers
    induction layers generalizing video with
    | nil => rfl
    | cons l ls ih =>
      obtain ⟨⟨hadv, fb, hfb, hid⟩, hrest⟩ :=
        List.forall_mem_cons.mp hlayers
      have hstep : applyProtectionLayer video l.advanced l.fallback = video := by
        rw [hfb]
        exact applyProtectionLayer_of_identity_fallback video _ fb
          (hadv video) hid
      simp only [runLayers, hstep]
      exact ih video hrest
  · intro B video layers hlayers
    induction layers generalizing video with
    | nil => rfl
    | cons l ls ih =>
      obtain ⟨⟨hadv, fb, hfb, hid⟩, hrest⟩ :=
        List.forall_mem_cons.mp hlayers
      have hstep : applyProtectionLayer video l.advanced l.fallback = video := by
        rw [hfb]
        exact applyProtectionLayer_of_both_fail video _ fb (hadv video)
          (hid video)
      simp only [runLayers, hstep]
      exact ih video hrest

/-- C1 witness: the theorem applied at a concrete buffer (`5 : Nat`) with a
concrete always-failing layer and a concrete identity-fallback layer list. -/
theorem protection_layer_failure_degrades_without_abort_app :
    applyProtectionLayer (5 : Nat) (fun _ => none) (some fun _ => none) = 5 ∧
    (runLayers (3 : Nat)
      [⟨"FGSM Adversarial Simulation", fun _ => none, some fun b => some b⟩]).1
        = 3 ∧
    (runLayers (7 : Nat)
      [⟨"CNN Neural Confusion", fun _ => none, some fun _ => none⟩]).1 = 7 :=
  ⟨protection_layer_failure_degrades_without_abort.1 Nat 5 _ _ rfl rfl,
   protection_layer_failure_degrades_without_abort.2.1 Nat 3 _
     (by
       intro l hl
       simp only [List.mem_singleton] at hl
       subst hl
       exact ⟨fun _ => rfl, _, rfl, fun _ => rfl⟩),
   protection_layer_failure_degrades_without_abort.2.2 Nat 7 _
     (by
       intro l hl
       simp only [List.mem_singleton] at hl
       subst hl
       exact ⟨fun _ => rfl, _, rfl, fun _ => rfl⟩)⟩

/-- C3 counterexample: a layer whose advanced and fallback functions both
fail on every input is *not* omitted from the layer report — the tiktok
system appends each layer's name unconditionally.  Concretely, a
single-layer run whose only layer is skipped (the buffer comes back
unchanged) still reports that layer. -/
theorem skipped_layer_still_reported :
    (runLayers (0 : Nat)
      [⟨"FGSM Adversarial Simulation", fun _ => none, some fun _ => none⟩]).2
        = ["FGSM Adversarial Simulation"] ∧
    (runLayers (0 : Nat)
      [⟨"FGSM Adversarial Simulation", fun _ => none, some fun _ => none⟩]).1
        = 0 :=
  ⟨rfl, rfl⟩

/-- C3 amended: the layer report accumulated by the pipeline lists *every*
layer attempted, in order — `protection_layers_applied.append` runs
unconditionally after each `apply_protection_layer` call, so layers whose
advanced and fallback functions both failed appear in the report too (and
the report is printed for diagnostics rather than returned: `apply_preset`
returns only the output path). -/
theorem layer_report_lists_every_layer {B : Type} :
    ∀ (video : B) (layers : List (Layer B)),
      (runLayers video layers).2 = layers.map Layer.name := by
  intro video layers
  induction layers generalizing video with
  | nil => rfl
  | cons l ls ih => simp only [runLayers, List.map_cons, ih]

/-- C6: `_apply_batch_protection` consults the clock only through the
10-minute bucket `int(time.time() / 600)`, so two calls at times in the same
bucket, with identical prior history and the same platform, candidate seed
and random draws, produce the same adjusted seed and the same new history. -/
theorem batch_protection_bucket_deterministic :
    ∀ (history : List Fingerprint) (seed : Nat) (platform : String)
      (now1 now2 r rOff : Nat), now1 / 600 = now2 / 600 →
      applyBatchProtection history seed platform now1 r rOff =
        applyBatchProtection history seed platform now2 r rOff := by
  intro history seed platform now1 now2 r rOff h
  unfold applyBatchProtection
  rw [h]

/-- C6 witness: times `0` and `599` share bucket `0`, and the two calls on a
concrete history agree. -/
theorem batch_protection_bucket_deterministic_app :
    applyBatchProtection [⟨"tiktok", 3, 0⟩] 3 "tiktok" 0 1 0 =
      applyBatchProtection [⟨"tiktok", 3, 0⟩] 3 "tiktok" 599 1 0 :=
  batch_protection_bucket_deterministic _ 3 "tiktok" 0 599 1 0 (by decide)

/-- C7 counterexample: with history `[{tiktok, 0, 0}]`, candidate seed `0`
(type `0`) in the same bucket, the call adjusts the returned type to `1` —
but the fingerprint it appends still records the *candidate* type `0`, not
the adjusted type actually returned. -/
theorem history_fingerprint_not_adjusted_type :
    (applyBatchProtection [⟨"tiktok", 0, 0⟩] 0 "tiktok" 0 0 0).1 % 8 = 1 ∧
    (applyBatchProtection [⟨"tiktok", 0, 0⟩] 0 "tiktok" 0 0 0).2.getLast?
      = some ⟨"tiktok", 0, 0⟩ ∧
    (applyBatchProtection [⟨"tiktok", 0, 0⟩] 0 "tiktok" 0 0 0).1 % 8 ≠ 0 := by
  refine ⟨by decide, by decide, by decide⟩

/-- C7 amended: every call appends exactly one fingerprint, recording the
*original candidate* type `variation_seed % 8` (the `session_fingerprint`
built before any adjustment), and the history is truncated to its last 10
entries, so it always ends the call with `min (old + 1) 10 ≤ 10` entries,
evicting the oldest on overflow. -/
theorem batch_protection_history_shape :
    ∀ (history : List Fingerprint) (seed : Nat) (platform : String)
      (now r rOff : Nat),
      ∃ pre : List Fingerprint,
        pre <:+ history ∧
        (applyBatchProtection history seed platform now r rOff).2 =
          pre ++ [⟨platform, seed % 8, now / 600⟩] ∧
        (applyBatchProtection history seed platform now r rOff).2.length =
          min (history.length + 1) maxHistory := by
  intro history seed platform now r rOff
  unfold applyBatchProtection
  simp only [List.length_append, List.length_cons, List.length_nil]
  by_cases hlen : history.length + 0 + 1 > maxHistory
  · refine ⟨history.drop (history.length + 0 + 1 - maxHistory), ?_, ?_, ?_⟩
    · exact List.drop_suffix _ _
    · simp only [hlen, if_pos, if_true]
      rw [List.drop_append_of_le_length (by unfold maxHistory at *; omega)]
    · simp only [hlen, if_pos, if_true, List.length_drop,
        List.length_append, List.length_cons, List.length_nil]
      unfold maxHistory at *
      omega
  · refine ⟨history, List.suffix_refl _, ?_, ?_⟩
    · simp only [hlen, if_neg, if_false]
    · simp only [hlen, if_neg, if_false, List.length_append,
        List.length_cons, List.length_nil]
      unfold maxHistory at *
      omega

/-- Helper: `random.choice` picks an element of its (nonempty) list. -/
theorem choiceNat_mem (l : List Nat) (r : Nat) (h : l ≠ []) :
    choiceNat l r ∈ l := by
  unfold choiceNat
  have hlen : r % l.length < l.length := Nat.mod_lt _ (List.length_pos.mpr h)
  rw [List.getD_eq_getElem?_getD, List.getElem?_eq_getElem hlen]
  simp [List.getElem_mem]

/-- Helper: every fingerprint in `recent_similar` carries the candidate's
variation type — the filter matches on it, which is why `used_types` can
never contain anything but the candidate type. -/
theorem recentSimilarList_type {history : List Fingerprint}
    {platform : String} {ctype bucket : Nat} {g : Fingerprint}
    (hg : g ∈ recentSimilarList history platform ctype bucket) :
    g.variationType = ctype := by
  simp only [recentSimilarList, List.mem_filter, Bool.and_eq_true,
    beq_iff_eq, decide_eq_true_eq] at hg
  exact hg.2.1.2

/-- C2 counterexample: history holds fingerprints of types `1` and `2` for
`tiktok` in the current bucket — only 2 of the 8 types are reserved in the
window.  Reserving candidate type `1` (seed `1`) with draw `r = 1` returns
adjusted type `2`, which *is* a type reserved for that platform within the
window: the replacement set only excludes the candidate's own type, not all
recently reserved types. -/
theorem adjusted_type_can_repeat_recent :
    (applyBatchProtection [⟨"tiktok", 1, 0⟩, ⟨"tiktok", 2, 0⟩] 1
        "tiktok" 0 1 0).1 % 8 = 2 ∧
    (((([⟨"tiktok", 1, 0⟩, ⟨"tiktok", 2, 0⟩] : List Fingerprint).filter
        fun f => f.platform == "tiktok" &&
          (decide (f.timestamp - 0 ≤ 3) && decide (0 - f.timestamp ≤ 3))).map
      Fingerprint.variationType).dedup.length = 2 ∧ 2 < 8) ∧
    (⟨"tiktok", 2, 0⟩ : Fingerprint) ∈
      ([⟨"tiktok", 1, 0⟩, ⟨"tiktok", 2, 0⟩] : List Fingerprint) := by
  refine ⟨by decide, ⟨by decide, by decide⟩, by decide⟩

/-- C2 amended: the replacement logic only guarantees avoidance of the
*candidate's own* type: whenever some fingerprint for this platform with the
candidate's type lies within the recency window, the adjusted type differs
from the candidate type (`used_types` contains only the candidate type, so
the unused set — the 7 other types — is never empty and the degraded
random-offset branch is unreachable); other recently reserved types may
still be returned. -/
theorem batch_protection_avoids_recent_candidate_type :
    ∀ (history : List Fingerprint) (seed : Nat) (platform : String)
      (now r rOff : Nat) (f : Fingerprint), f ∈ history →
      f.platform = platform → f.variationType = seed % 8 →
      f.timestamp - now / 600 ≤ 3 → now / 600 - f.timestamp ≤ 3 →
      (applyBatchProtection history seed platform now r rOff).1 % 8 ≠
        seed % 8 := by
  intro history seed platform now r rOff f hmem hfp hft h1 h2
  have hfmem : f ∈ recentSimilarList history platform (seed % 8) (now / 600) := by
    simp only [recentSimilarList, List.mem_filter, Bool.and_eq_true,
      beq_iff_eq, decide_eq_true_eq]
    exact ⟨hmem, ⟨hfp, hft⟩, h1, h2⟩
  have hre : (recentSimilarList history platform (seed % 8) (now / 600)).isEmpty
      = false := by
    rw [List.isEmpty_eq_false]
    exact List.ne_nil_of_mem hfmem
  set used :=
    (recentSimilarList history platform (seed % 8) (now / 600)).map
      (·.variationType) with hused_def
  have hused : ∀ u ∈ used, u = seed % 8 := by
    intro u hu
    rcases List.mem_map.mp hu with ⟨g, hg, rfl⟩
    exact recentSimilarList_type hg
  have hcand : seed % 8 ∈ used := List.mem_map.mpr ⟨f, hfmem, hft⟩
  set avail := (List.range 8).filter (fun t => !used.contains t) with havail_def
  have havail_iff : ∀ t, t ∈ avail ↔ t < 8 ∧ t ∉ used := by
    intro t
    simp [havail_def, List.mem_filter, List.mem_range]
  have havail_ne : avail ≠ [] := by
    refine List.ne_nil_of_mem (a := if seed % 8 = 0 then 1 else 0) ?_
    rw [havail_iff]
    by_cases h0 : seed % 8 = 0
    · refine ⟨by simp [h0], fun hc => ?_⟩
      simp only [h0, if_pos] at hc
      have := hused 1 hc
      omega
    · refine ⟨by simp [h0], fun hc => ?_⟩
      simp only [h0, if_neg, if_false] at hc
      exact h0 ((hused 0 hc).symm)
  have hav : avail.isEmpty = false := by
    rw [List.isEmpty_eq_false]
    exact havail_ne
  have hchosen := choiceNat_mem avail r havail_ne
  rw [havail_iff] at hchosen
  have hresult : (applyBatchProtection history seed platform now r rOff).1 =
      (seed / 8) * 8 + choiceNat avail r := by
    unfold applyBatchProtection
    simp only [hre, Bool.false_eq_true, if_false, ← hused_def, ← havail_def,
      hav, if_true]
  have hmod : (seed / 8 * 8 + choiceNat avail r) % 8 = choiceNat avail r := by
    have := hchosen.1
    omega
  rw [hresult, hmod]
  intro hEq
  exact hchosen.2 (hEq ▸ hcand)

/-- C2 amended witness: the theorem applied to the concrete history
`[{tiktok, 1, bucket 0}]` with candidate seed `1` in bucket 0. -/
theorem batch_protection_avoids_recent_candidate_type_app :
    (applyBatchProtection [⟨"tiktok", 1, 0⟩] 1 "tiktok" 0 0 0).1 % 8 ≠ 1 % 8 :=
  batch_protection_avoids_recent_candidate_type [⟨"tiktok", 1, 0⟩] 1
    "tiktok" 0 0 0 ⟨"tiktok", 1, 0⟩ (by decide) rfl (by decide) (by decide)
    (by decide)

/-- C4 counterexample: for the unrecognized platform `facebook`, the video
`apply_preset` performs the advanced-audio-protection work on the media
*before* raising the unknown-platform error (the call at line 101 precedes
the dispatch at lines 105–112); moreover a recognized-platform video run
whose primary and fallback encodes both fail surfaces a different failure
(`TikTok processing failed`) to the caller. -/
theorem video_preset_works_before_unknown_platform_error :
    videoApplyPreset "facebook" true true =
      ([.audioProtection], .error "Unknown platform: facebook") ∧
    [MediaWork.audioProtection] ≠ ([] : List MediaWork) ∧
    (videoApplyPreset "tiktok" false false).2 =
      .error "TikTok processing failed" := by
  refine ⟨rfl, by decide, rfl⟩

/-- C4 amended: the image `apply_preset` raises the unknown-platform error
before any work touches the media; the video `apply_preset` raises the same
error only *after* the advanced-audio-protection stage has been attempted on
the media (that stage swallows its own failures); and failures of a
recognized platform's processing (e.g. both encodes failing) are re-raised
to the caller. -/
theorem unknown_platform_error_placement :
    ∀ (platform : String) (openOk primaryOk fallbackOk : Bool),
      platform ≠ "tiktok" → platform ≠ "instagram" → platform ≠ "youtube" →
      imageApplyPreset platform openOk =
        ([], .error ("Unknown platform: " ++ platform)) ∧
      videoApplyPreset platform primaryOk fallbackOk =
        ([.audioProtection], .error ("Unknown platform: " ++ platform)) := by
  intro platform openOk primaryOk fallbackOk h1 h2 h3
  constructor
  · simp [imageApplyPreset, h1, h2, h3]
  · simp [videoApplyPreset, h1, h2, h3]

/-- C4 amended witness: the theorem applied at the concrete platform
`facebook`. -/
theorem unknown_platform_error_placement_app :
    imageApplyPreset "facebook" true =
      ([], .error "Unknown platform: facebook") ∧
    videoApplyPreset "facebook" true true =
      ([.audioProtection], .error "Unknown platform: facebook") :=
  unknown_platform_error_placement "facebook" true true true
    (by decide) (by decide) (by decide)

/-- Helper: `|a * u * ι| ≤ a * ι` for a nonnegative scale `a`, a unit draw
`|u| ≤ 1` and a nonnegative intensity. -/
theorem abs_scaled_draw_le (a u ι : ℚ) (ha : 0 ≤ a) (hu : |u| ≤ 1)
    (hι : 0 ≤ ι) : |a * u * ι| ≤ a * ι := by
  rw [abs_mul, abs_mul, abs_of_nonneg ha, abs_of_nonneg hι]
  calc a * |u| * ι ≤ a * 1 * ι :=
        mul_le_mul_of_nonneg_right (mul_le_mul_of_nonneg_left hu ha) hι
    _ = a * ι := by ring

/-- Helper: the `mixed` branch of the band perturbation, written as an
if-chain on the coefficient position. -/
theorem dctBandPerturb_mixed_eq (ι : ℚ) (uA uB uC block : Fin 8 → Fin 8 → ℚ)
    (i j : Fin 8) :
    dctBandPerturb "mixed" ι uA uB uC block i j =
      (if i.1 < 3 ∧ j.1 < 3 then block i j + 0.3 * uA i j * ι
       else if 3 ≤ i.1 ∧ i.1 < 6 ∧ 3 ≤ j.1 ∧ j.1 < 6 then
         block i j + 0.6 * uB i j * ι
       else if 6 ≤ i.1 ∧ 6 ≤ j.1 then block i j + 0.9 * uC i j * ι
       else block i j) := by
  simp [dctBandPerturb]

/-- Helper: the `mid` branch of the band perturbation. -/
theorem dctBandPerturb_mid_eq (ι : ℚ) (uA uB uC block : Fin 8 → Fin 8 → ℚ)
    (i j : Fin 8) :
    dctBandPerturb "mid" ι uA uB uC block i j =
      (if 2 ≤ i.1 ∧ i.1 < 6 ∧ 2 ≤ j.1 ∧ j.1 < 6 then
         block i j + 0.8 * uB i j * ι
       else block i j) := by
  simp [dctBandPerturb]

/-- C5 counterexample: the `mixed` branch does not perturb the `mid`
sub-range `[2:6, 2:6]` of the single-band branches — at coefficient
`(2, 3)` (inside `[2:6, 2:6]`) the `mixed` branch leaves the block
unchanged even with every draw at full magnitude, while the `mid` branch
does perturb it; and the `mixed` offsets grow with frequency
(`0.3 < 0.9` at cells `(0,0)` vs `(6,6)`), rather than decrease. -/
theorem mixed_band_differs_from_claimed_ranges :
    dctBandPerturb "mixed" 1 (fun _ _ => 1) (fun _ _ => 1) (fun _ _ => 1)
      (fun _ _ => 0) 2 3 = 0 ∧
    dctBandPerturb "mid" 1 (fun _ _ => 1) (fun _ _ => 1) (fun _ _ => 1)
      (fun _ _ => 0) 2 3 = 0.8 ∧
    |dctBandPerturb "mixed" 1 (fun _ _ => 1) (fun _ _ => 1) (fun _ _ => 1)
      (fun _ _ => 0) 0 0| <
    |dctBandPerturb "mixed" 1 (fun _ _ => 1) (fun _ _ => 1) (fun _ _ => 1)
      (fun _ _ => 0) 6 6| := by
  refine ⟨?_, ?_, ?_⟩
  · rw [dctBandPerturb_mixed_eq, if_neg (by decide), if_neg (by decide),
      if_neg (by decide)]
  · rw [dctBandPerturb_mid_eq, if_pos (by decide)]
    norm_num
  · rw [dctBandPerturb_mixed_eq, if_pos (by decide),
      dctBandPerturb_mixed_eq, if_neg (by decide), if_neg (by decide),
      if_pos (by decide)]
    rw [abs_of_nonneg (by norm_num), abs_of_nonneg (by norm_num)]
    norm_num

/-- C5 amended: for `frequency_bands = 'mixed'` the perturbation adds
random offsets on the three *disjoint* sub-ranges `[0:3,0:3]`, `[3:6,3:6]`
and `[6:8,6:8]` with scale factors `0.3`, `0.6` and `0.9` times the
intensity — magnitude *increasing* as frequency increases — and leaves
every other coefficient unchanged; the total per-coefficient offset is
bounded by `0.9 × intensity` for unit draws. -/
theorem mixed_band_perturbation_characterization :
    ∀ (ι : ℚ) (uA uB uC block : Fin 8 → Fin 8 → ℚ) (i j : Fin 8),
      (i.1 < 3 ∧ j.1 < 3 →
        dctBandPerturb "mixed" ι uA uB uC block i j =
          block i j + 0.3 * uA i j * ι) ∧
      (3 ≤ i.1 ∧ i.1 < 6 ∧ 3 ≤ j.1 ∧ j.1 < 6 →
        dctBandPerturb "mixed" ι uA uB uC block i j =
          block i j + 0.6 * uB i j * ι) ∧
      (6 ≤ i.1 ∧ 6 ≤ j.1 →
        dctBandPerturb "mixed" ι uA uB uC block i j =
          block i j + 0.9 * uC i j * ι) ∧
      (¬(i.1 < 3 ∧ j.1 < 3) → ¬(3 ≤ i.1 ∧ i.1 < 6 ∧ 3 ≤ j.1 ∧ j.1 < 6) →
        ¬(6 ≤ i.1 ∧ 6 ≤ j.1) →
        dctBandPerturb "mixed" ι uA uB uC block i j = block i j) ∧
      (|uA i j| ≤ 1 → |uB i j| ≤ 1 → |uC i j| ≤ 1 → 0 ≤ ι →
        |dctBandPerturb "mixed" ι uA uB uC block i j - block i j| ≤
          0.9 * ι) := by
  intro ι uA uB uC block i j
  have hs := dctBandPerturb_mixed_eq ι uA uB uC block i j
  refine ⟨?_, ?_, ?_, ?_, ?_⟩
  · intro h
    rw [hs, if_pos h]
  · intro h
    rw [hs, if_neg (by omega), if_pos h]
  · intro h
    rw [hs, if_neg (by omega), if_neg (by omega), if_pos h]
  · intro h1 h2 h3
    rw [hs, if_neg h1, if_neg h2, if_neg h3]
  · intro ha hb hc hι
    rw [hs]
    split_ifs with h1 h2 h3
    · have := abs_scaled_draw_le 0.3 (uA i j) ι (by norm_num) ha hι
      have harith : block i j + 0.3 * uA i j * ι - block i j =
          0.3 * uA i j * ι := by ring
      rw [harith]
      nlinarith
    · have := abs_scaled_draw_le 0.6 (uB i j) ι (by norm_num) hb hι
      have harith : block i j + 0.6 * uB i j * ι - block i j =
          0.6 * uB i j * ι := by ring
      rw [harith]
      nlinarith
    · have := abs_scaled_draw_le 0.9 (uC i j) ι (by norm_num) hc hι
      have harith : block i j + 0.9 * uC i j * ι - block i j =
          0.9 * uC i j * ι := by ring
      rw [harith]
      nlinarith
    · simp only [sub_self, abs_zero]
      positivity

/-- C5 amended witness: the theorem applied at a concrete all-zero block
with all draws at `1` and intensity `1/5`, evaluated at cells `(1, 1)`,
`(4, 4)`, `(7, 7)` and `(2, 3)`. -/
theorem mixed_band_perturbation_characterization_app :
    dctBandPerturb "mixed" (1/5) (fun _ _ => 1) (fun _ _ => 1) (fun _ _ => 1)
      (fun _ _ => 0) 1 1 = 0 + 0.3 * 1 * (1/5) ∧
    dctBandPerturb "mixed" (1/5) (fun _ _ => 1) (fun _ _ => 1) (fun _ _ => 1)
      (fun _ _ => 0) 4 4 = 0 + 0.6 * 1 * (1/5) ∧
    dctBandPerturb "mixed" (1/5) (fun _ _ => 1) (fun _ _ => 1) (fun _ _ => 1)
      (fun _ _ => 0) 7 7 = 0 + 0.9 * 1 * (1/5) ∧
    dctBandPerturb "mixed" (1/5) (fun _ _ => 1) (fun _ _ => 1) (fun _ _ => 1)
      (fun _ _ => 0) 2 3 = 0 ∧
    |dctBandPerturb "mixed" (1/5) (fun _ _ => 1) (fun _ _ => 1)
      (fun _ _ => 1) (fun _ _ => 0) 7 7 - 0| ≤ 0.9 * (1/5) :=
  ⟨(mixed_band_perturbation_characterization (1/5) _ _ _ _ 1 1).1
      (by decide),
   (mixed_band_perturbation_characterization (1/5) _ _ _ _ 4 4).2.1
      (by decide),
   (mixed_band_perturbation_characterization (1/5) _ _ _ _ 7 7).2.2.1
      (by decide),
   (mixed_band_perturbation_characterization (1/5) _ _ _ _ 2 3).2.2.2.1
      (by decide) (by decide) (by decide),
   (mixed_band_perturbation_characterization (1/5) _ _ _ _ 7 7).2.2.2.2
      (by norm_num) (by norm_num) (by norm_num) (by norm_num)⟩

/-- Helper: `getD` with default `0` on a list of zeros is `0`. -/
theorem getD_zero_of_all_zero (l : List ℚ) (hl : ∀ x ∈ l, x = 0) (n : Nat) :
    l.getD n 0 = 0 := by
  induction l generalizing n with
  | nil => simp [List.getD]
  | cons a t ih =>
    cases n with
    | zero => simpa using hl a (List.mem_cons_self a t)
    | succ m =>
      simp only [List.getD_cons_succ]
      exact ih (fun x hx => hl x (List.mem_cons_of_mem a hx)) m

/-- Helper: the 70th percentile of an all-zero sample is `0`. -/
theorem percentile70_all_zero (xs : List ℚ) (hxs : ∀ x ∈ xs, x = 0) :
    percentile70 xs = 0 := by
  have hsorted : ∀ x ∈ List.insertionSort (· ≤ ·) xs, x = 0 := fun x hx =>
    hxs x ((List.perm_insertionSort _ xs).mem_iff.mp hx)
  unfold percentile70
  by_cases hn : (List.insertionSort (· ≤ ·) xs).length = 0
  · simp [hn]
  · simp only [hn, if_neg, if_false]
    rw [getD_zero_of_all_zero _ hsorted, getD_zero_of_all_zero _ hsorted]
    ring

/-- Helper: each entry of `sobelValues` is a sobel response. -/
theorem sobelValues_mem {h w : Nat} (img : Image h w) (x : ℚ)
    (hx : x ∈ sobelValues img) :
    ∃ (i : Fin h) (j : Fin w), x = sobelAt (grayAt img) i j := by
  simp only [sobelValues, List.mem_flatten, List.mem_map] at hx
  rcases hx with ⟨l, ⟨i, _, rfl⟩, hl⟩
  rcases List.mem_map.mp hl with ⟨j, _, rfl⟩
  exact ⟨i, j, rfl⟩

/-- Helper: the luminance of a constant image is constant. -/
theorem grayAt_const {h w : Nat} (img : Image h w) (k : Nat)
    (himg : ∀ i j c, img i j c = k) (i : Fin h) (j : Fin w) :
    grayAt img i j = k := by
  simp only [grayAt, himg]
  push_cast
  ring

/-- Helper: the sobel response of a constant plane vanishes (the derivative
stencil weights sum to zero). -/
theorem sobelAt_const {h w : Nat} (g : Fin h → Fin w → ℚ) (q : ℚ)
    (hg : ∀ i j, g i j = q) (i : Fin h) (j : Fin w) : sobelAt g i j = 0 := by
  simp [sobelAt, hg]

/-- Helper: the detection mask of a constant image is empty — the gradient
map is identically zero, its 70th percentile is zero, and `0 > 0` fails. -/
theorem textureMask_const {h w : Nat} (img : Image h w) (k : Nat)
    (himg : ∀ i j c, img i j c = k) (i : Fin h) (j : Fin w) :
    textureMask img i j = false := by
  have hzero : ∀ x ∈ sobelValues img, x = 0 := by
    intro x hx
    rcases sobelValues_mem img x hx with ⟨i', j', rfl⟩
    exact sobelAt_const _ (k : ℚ) (grayAt_const img k himg) i' j'
  unfold textureMask
  rw [percentile70_all_zero _ hzero,
    sobelAt_const _ (k : ℚ) (grayAt_const img k himg) i j]
  simp

/-- C8: on an image plane of constant pixel value the gradient map is zero
everywhere, so the detection mask is empty and the adaptive bit embedder
returns the image unchanged — for *every* variation (any type and
intensity) and every channel, and for every pattern generator: a
no-high-texture input yields zero embedded bits rather than an error. -/
theorem embed_on_flat_image_is_noop :
    ∀ (h w : Nat) (sp : Nat → Nat → Nat → Nat) (img : Image h w)
      (v : Variation) (k : Nat), (∀ i j c, img i j c = k) →
      embedStego sp img v = img := by
  intro h w sp img v k himg
  funext i j c
  simp [embedStego, textureMask_const img k himg i j]

/-- C8 witness: the theorem applied to the concrete 2×2 solid-gray image
(all channels 128) with a concrete pattern generator and a concrete
variation. -/
theorem embed_on_flat_image_is_noop_app :
    embedStego (fun s i j => s + i + j)
        (fun _ _ _ => 128 : Image 2 2)
        ⟨1, 0.2, 3, 0.01, "low", 0.02⟩ =
      (fun _ _ _ => 128 : Image 2 2) :=
  embed_on_flat_image_is_noop 2 2 (fun s i j => s + i + j) _
    ⟨1, 0.2, 3, 0.01, "low", 0.02⟩ 128 (fun _ _ _ => rfl)

/-- C9: the adaptive bit embedder's behaviour is a pure function of its
inputs: (1) it is independent of the ambient state of the global random
generator on entry — `np.random.seed(variation['type'] + c)` overwrites
that state, so the selection pattern is seeded from `variation.type` and
the channel index alone — hence two applications to the same plane,
variation and channel produce identical results; and (2) any cell it
modifies lies in the deterministic selected set (detection mask ∧ seeded
pattern hit), itself a pure function of the image, `variation.type` and
the channel, so two applications modify at most the same cell set. -/
theorem embed_pattern_pure_functions :
    (∀ (h w : Nat) (sp : Nat → Nat → Nat → Nat) (g1 g2 : Nat)
        (img : Image h w) (v : Variation),
      embedStegoFromState sp g1 img v = embedStegoFromState sp g2 img v) ∧
    (∀ (h w : Nat) (sp : Nat → Nat → Nat → Nat) (img : Image h w)
        (v : Variation) (i : Fin h) (j : Fin w) (c : Fin 3),
      embedStego sp img v i j c ≠ img i j c →
      textureMask img i j = true ∧ sp (v.type + c.1) i.1 j.1 % 4 = 0) := by
  constructor
  · intro h w sp g1 g2 img v
    rfl
  · intro h w sp img v i j c hne
    by_cases hm : textureMask img i j = true
    · by_cases hp : sp (v.type + c.1) i.1 j.1 % 4 = 0
      · exact ⟨hm, hp⟩
      · exfalso
        apply hne
        have hbeq : (sp (v.type + c.1) i.1 j.1 % 4 == 0) = false :=
          beq_eq_false_iff_ne.mpr hp
        simp [embedStego, hbeq]
    · exfalso
      apply hne
      have hbm : textureMask img i j = false := by
        revert hm
        cases textureMask img i j <;> simp
      simp [embedStego, hbm]

/-- Witness image for the embedding claims: one row `[0, 60, 0]` on all
channels — its sobel responses are `[240, 0, -240]`, the 70th percentile is
`96`, so exactly the first cell is high-texture. -/
def flatRampImage : Image 1 3 :=
  fun _ j _ => if j.1 = 1 then 60 else 0

/-- Witness pattern generator: every draw is `0`, so every masked cell is
pattern-selected. -/
def constPattern : Nat → Nat → Nat → Nat := fun _ _ _ => 0

/-- Witness variation: type `1`, intensity `0.2`. -/
def witnessVariation : Variation :=
  ⟨1, 0.2, 3, 0.01, "low", 0.02⟩

/-- Helper: the sobel responses of `flatRampImage`. -/
theorem flatRampImage_sobel :
    sobelAt (grayAt flatRampImage) 0 0 = 240 ∧
    sobelAt (grayAt flatRampImage) 0 1 = 0 ∧
    sobelAt (grayAt flatRampImage) 0 2 = -240 := by
  refine ⟨?_, ?_, ?_⟩ <;>
    · norm_num [sobelAt, grayAt, flatRampImage, reflectFin, reflectIdx,
        show Int.toNat 0 = 0 from rfl, show Int.toNat 1 = 1 from rfl,
        show Int.toNat 2 = 2 from rfl, show Int.toNat 3 = 3 from rfl]

/-- Helper: the texture mask of `flatRampImage` is true at the first
cell. -/
theorem flatRampImage_mask : textureMask flatRampImage 0 0 = true := by
  have hvals : sobelValues flatRampImage =
      [sobelAt (grayAt flatRampImage) 0 0, sobelAt (grayAt flatRampImage) 0 1,
        sobelAt (grayAt flatRampImage) 0 2] := rfl
  have hperc : percentile70 (sobelValues flatRampImage) = 96 := by
    rw [hvals, flatRampImage_sobel.1, flatRampImage_sobel.2.1,
      flatRampImage_sobel.2.2]
    have hfl : ⌊(7/5 : ℚ)⌋₊ = 1 := by
      rw [Nat.floor_eq_iff (by norm_num)]
      norm_num
    norm_num [percentile70, List.insertionSort, List.orderedInsert, hfl,
      List.getD]
  unfold textureMask
  rw [hperc, flatRampImage_sobel.1]
  norm_num

/-- C9 witness: the theorem applied to the concrete image, pattern and
variation — part (1) at two distinct ambient generator states, part (2) at
cell `(0,0)`, channel `0`, where the embedder rewrites the pixel from `0`
to `1`. -/
theorem embed_pattern_pure_functions_app :
    embedStegoFromState constPattern 5 flatRampImage witnessVariation =
      embedStegoFromState constPattern 99 flatRampImage witnessVariation ∧
    (textureMask flatRampImage 0 0 = true ∧
      constPattern (witnessVariation.type + (0 : Fin 3).1) (0 : Fin 1).1
        (0 : Fin 3).1 % 4 = 0) := by
  constructor
  · exact embed_pattern_pure_functions.1 1 3 constPattern 5 99
      flatRampImage witnessVariation
  · have hemb : embedStego constPattern flatRampImage witnessVariation 0 0 0
        = 1 := by
      have hmask := flatRampImage_mask
      norm_num [embedStego, hmask, constPattern, witnessVariation,
        flatRampImage]
    refine embed_pattern_pure_functions.2 1 3 constPattern flatRampImage
      witnessVariation 0 0 0 ?_
    rw [hemb]
    norm_num [flatRampImage]

set_option maxRecDepth 10000

/-- Helper: rewriting the lowest bit of a byte moves its value by at most
one. -/
theorem lsb_write_dist :
    ∀ x < 256, ∀ b < 2,
      ((x &&& 254) ||| b) ≤ x + 1 ∧ x ≤ ((x &&& 254) ||| b) + 1 := by
  decide

/-- C10: every variation produced by `_get_dynamic_variation` for the three
image platforms has `intensity ≤ 0.35` (tiktok samples `[0.15, 0.35]`,
instagram `[0.12, 0.28]`, youtube `[0.10, 0.25]`), so the embedder's
second-lowest-bit branch — guarded by `intensity > 0.8` — is unreachable,
and the embedding moves each `uint8` pixel value by at most `1` (only the
lowest bit). -/
theorem image_variation_keeps_embedding_lsb_only :
    ∀ (platform : String) (tSec rSeed : Nat) (uI : ℚ) (rNoise : Nat)
      (uC : ℚ) (rBands : Nat) (uS : ℚ),
      platform ∈ ["tiktok", "instagram", "youtube"] → 0 ≤ uI → uI ≤ 1 →
      (getDynamicVariation platform tSec rSeed uI rNoise uC rBands uS).intensity
          ≤ 0.35 ∧
      ¬((0.8 : ℚ) <
        (getDynamicVariation platform tSec rSeed uI rNoise uC rBands
          uS).intensity) ∧
      (∀ (h w : Nat) (sp : Nat → Nat → Nat → Nat) (img : Image h w)
          (i : Fin h) (j : Fin w) (c : Fin 3), img i j c < 256 →
        embedStego sp img
            (getDynamicVariation platform tSec rSeed uI rNoise uC rBands uS)
            i j c ≤ img i j c + 1 ∧
        img i j c ≤ embedStego sp img
            (getDynamicVariation platform tSec rSeed uI rNoise uC rBands uS)
            i j c + 1) := by
  intro platform tSec rSeed uI rNoise uC rBands uS hplat hu0 hu1
  have hint : (getDynamicVariation platform tSec rSeed uI rNoise uC rBands
      uS).intensity ≤ 0.35 := by
    simp only [List.mem_cons, List.mem_singleton] at hplat
    rcases hplat with rfl | rfl | rfl | hfalse
    · unfold getDynamicVariation
      rw [if_neg (by decide), if_neg (by decide)]
      simp only [uniformDraw]
      linarith
    · unfold getDynamicVariation
      rw [if_pos rfl]
      simp only [uniformDraw]
      linarith
    · unfold getDynamicVariation
      rw [if_neg (by decide), if_pos rfl]
      simp only [uniformDraw]
      linarith
    · simp at hfalse
  have hni : ¬((0.8 : ℚ) <
      (getDynamicVariation platform tSec rSeed uI rNoise uC rBands
        uS).intensity) := by
    intro hgt
    linarith
  refine ⟨hint, hni, ?_⟩
  intro h w sp img i j c hlt
  set v := getDynamicVariation platform tSec rSeed uI rNoise uC rBands uS
    with hv
  have hbody : embedStego sp img v i j c =
      (if textureMask img i j && (sp (v.type + c.1) i.1 j.1 % 4 == 0) then
        (img i j c &&& 254) ||| (v.type % 2)
      else img i j c) := by
    simp only [embedStego, if_neg hni]
  rw [hbody]
  by_cases hsel :
      (textureMask img i j && (sp (v.type + c.1) i.1 j.1 % 4 == 0)) = true
  · rw [if_pos hsel]
    exact lsb_write_dist (img i j c) hlt (v.type % 2)
      (Nat.mod_lt _ (by norm_num))
  · rw [if_neg hsel]
    omega

/-- C10 witness: the theorem applied at platform `tiktok` with the
intensity draw at its maximum (`uI = 1`, giving intensity `0.35`) and the
embedding bound evaluated on a concrete 1×1 image with pixel value 255. -/
theorem image_variation_keeps_embedding_lsb_only_app :
    (getDynamicVariation "tiktok" 0 0 1 0 0 0 0).intensity ≤ 0.35 ∧
    ¬((0.8 : ℚ) < (getDynamicVariation "tiktok" 0 0 1 0 0 0 0).intensity) ∧
    (embedStego (fun _ _ _ => 0) (fun _ _ _ => 255 : Image 1 1)
        (getDynamicVariation "tiktok" 0 0 1 0 0 0 0) 0 0 0 ≤ 255 + 1 ∧
      255 ≤ embedStego (fun _ _ _ => 0) (fun _ _ _ => 255 : Image 1 1)
        (getDynamicVariation "tiktok" 0 0 1 0 0 0 0) 0 0 0 + 1) := by
  obtain ⟨h1, h2, h3⟩ :=
    image_variation_keeps_embedding_lsb_only "tiktok" 0 0 1 0 0 0 0
      (by decide) (by norm_num) (by norm_num)
  exact ⟨h1, h2, h3 1 1 (fun _ _ _ => 0) (fun _ _ _ => 255) 0 0 0
    (by norm_num)⟩

end MediaMorph
